import Mathlib

/-!
Verification of the XLA HLO-reproducer driver
(`tensorflow/compiler/xla/tools/driver.cc`) against its natural-language
specification.

The driver is shallowly embedded: text is modelled as `List Char`
(`std::string` read character-wise), machine integers as `Nat`/`Int`,
C++ `std::regex` patterns as hand-rolled matchers with ECMAScript
leftmost/greedy semantics, fatal `Check`/`ExitWithMsg` diagnostics and
uncaught C++ exceptions as an `Except Failure` monad, and the standard
output stream as a list of write events.  `std::mt19937` is implemented
bit-for-bit (its algorithm is fixed by the C++ standard);
`std::uniform_int_distribution` follows libstdc++ (the standard leaves
its algorithm implementation-defined), with the rejection loop given a
finite draw budget (a modelling artifact; the real loop rejects a
32-bit word with probability < 2^-25).
-/

/-- Text, modelled as a list of characters. -/
abbrev Chars := List Char

/-- How a run of the driver dies.  `diagnostic` is `ExitWithMsg`/`Check`
(one message line to stderr, exit 1); `exception` is an uncaught C++
exception (e.g. `std::stoi` on a non-numeral); `undefinedBehavior` marks
out-of-bounds container accesses the C++ leaves undefined. -/
inductive Failure where
  | diagnostic (msg : String)
  | exception
  | undefinedBehavior
deriving DecidableEq, Repr

/-- `Check(cond, msg)` from driver.cc: exit with `msg` unless `cond`. -/
def Check (cond : Bool) (msg : String) : Except Failure Unit :=
  if cond then .ok () else .error (.diagnostic msg)

/-- The canonical primitive-type tokens, in enum order
(S16=0, S32, S64, U8, U16, U32, U64, F16, BF16, F32, F64, C64, C128);
`primitive_strings()` in driver.cc. -/
def primitiveNames : List String :=
  ["s16", "s32", "s64", "u8", "u16", "u32", "u64", "f16", "bf16", "f32",
   "f64", "c64", "c128"]

/-- The same tokens as character lists. -/
def primitiveTokens : List Chars := primitiveNames.map String.data

/-- `ToString(PrimitiveType)` for building diagnostic messages; the
out-of-range default stands in for the undefined vector access. -/
def ptNameString (t : Nat) : String := (primitiveNames.get? t).getD ""

/-- `ToString(PrimitiveType)` as a character list. -/
def ptToken (t : Nat) : Option Chars := primitiveTokens.get? t

/-- One decimal digit character (the digits of `std::to_string`). -/
def digitChar : Nat → Char
  | 0 => '0' | 1 => '1' | 2 => '2' | 3 => '3' | 4 => '4'
  | 5 => '5' | 6 => '6' | 7 => '7' | 8 => '8' | _ => '9'

/-- Decimal digits of `n`, with enough fuel to cover every digit
(structural recursion so that concrete texts evaluate in the kernel). -/
def natToCharsF : Nat → Nat → Chars
  | 0, _ => []
  | fuel + 1, n =>
    if n < 10 then [digitChar n]
    else natToCharsF fuel (n / 10) ++ [digitChar (n % 10)]

/-- Decimal text of a natural number, as `std::to_string` prints it. -/
def natToChars (n : Nat) : Chars := natToCharsF (n + 1) n

/-- Decimal text of an `int`, as `std::to_string` prints it. -/
def intToChars (i : Int) : Chars :=
  if i < 0 then '-' :: natToChars (-i).toNat else natToChars i.toNat

/-- C `isdigit` on the characters that matter here. -/
def isDigitCh (c : Char) : Bool :=
  c ∈ ['0', '1', '2', '3', '4', '5', '6', '7', '8', '9']

/-- C `isspace` (the characters `std::stoi` skips). -/
def isSpaceChar (c : Char) : Bool :=
  c = ' ' || c = '\t' || c = '\n' || c = '\x0b' || c = '\x0c' || c = '\r'

/-- Value of a run of decimal digit characters. -/
def digitsVal (l : Chars) : Nat :=
  l.foldl (fun a c => a * 10 + (c.toNat - 48)) 0

/-- `std::stoi`: skip whitespace, optional sign, a maximal digit run
(`none` when there is no digit, or on `int` overflow — both throw in
C++). -/
def stoiInt (s : Chars) : Option Int :=
  let s1 := s.dropWhile isSpaceChar
  let neg := s1.headD ' ' = '-'
  let s2 := if s1.headD ' ' = '-' ∨ s1.headD ' ' = '+' then s1.tail else s1
  let digs := s2.takeWhile isDigitCh
  if digs = [] then none
  else
    let v : Int := (if neg then -1 else 1) * (digitsVal digs : Nat)
    if v < -2147483648 ∨ 2147483647 < v then none else some v

/-- Split at the first occurrence of `d`: `s = a ++ d :: b` with `d ∉ a`. -/
def splitFirst : Chars → Char → Option (Chars × Chars)
  | [], _ => none
  | c :: r, d =>
    if c = d then some ([], r)
    else (splitFirst r d).map (fun p => (c :: p.1, p.2))

/-- The anchored match of the shape regex `([^\[]+)\[(.*)\]`:
group 1 is the (nonempty) text before the first `[`, group 2 the text
between that `[` and the final character, which must be `]`. -/
def bracketMatch (s : Chars) : Option (Chars × Chars) :=
  match splitFirst s '[' with
  | none => none
  | some (a, b) =>
    if a = [] then none
    else if b.getLast? = some ']' then some (a, b.dropLast) else none

/-- Worker for `getlineSplit`: `acc` is the reversed current token; a
delimiter emits the token, and a delimiter at end of input stops
without an empty trailing token (as `std::getline` does). -/
def getlineSplitGo (d : Char) (acc : Chars) : Chars → List Chars
  | [] => [acc.reverse]
  | c :: r =>
    if c = d then
      match r with
      | [] => [acc.reverse]
      | _ :: _ => acc.reverse :: getlineSplitGo d [] r
    else getlineSplitGo d (c :: acc) r

/-- `std::getline(stream, tok, d)` splitting: like splitting on `d`,
except that an empty trailing field after a final delimiter is not
produced, and the empty string yields no fields. -/
def getlineSplit (s : Chars) (d : Char) : List Chars :=
  match s with
  | [] => []
  | _ :: _ => getlineSplitGo d [] s

/-- Join a list of token lists with a separator (how the `std::ostringstream`
formatters interleave separators). -/
def joinSep {α : Type} (sep : List α) : List (List α) → List α
  | [] => []
  | [t] => t
  | t :: r => t ++ sep ++ joinSep sep r

/-- Strip a literal from the front, or fail. -/
def dropLit : Chars → Chars → Option Chars
  | [], s => some s
  | _, [] => none
  | a :: la, s =>
    match s with
    | [] => none
    | b :: lb => if a = b then dropLit la lb else none

/-- `ArrayShape` from driver.cc; the type is the raw enum value, which
`PrimitiveTypeFromString` can leave out of range (13) for unknown
tokens. -/
structure ArrayShape where
  type : Nat
  dimensions : List Int
deriving DecidableEq, Repr, Inhabited

/-- `TupleShape` from driver.cc (flat tuples only). -/
structure TupleShape where
  elements : List ArrayShape
deriving DecidableEq, Repr, Inhabited

/-- `GetNumElements`: product of the dimensions (1 for a scalar). -/
def GetNumElements (shape : ArrayShape) : Int :=
  shape.dimensions.foldl (fun a d => a * d) 1

/-- `ArrayShapeToString`: `TYPE[D1,D2,...,DN]`. -/
def ArrayShapeToString (shape : ArrayShape) : Chars :=
  ((ptToken shape.type).getD []) ++
    '[' :: joinSep [','] (shape.dimensions.map intToChars) ++ [']']

/-- `TupleShapeToString`: one element prints as the bare array form;
otherwise the elements are wrapped in parentheses and joined by ", ". -/
def TupleShapeToString (shape : TupleShape) : Chars :=
  if shape.elements.length = 1 then
    ArrayShapeToString (shape.elements.getD 0 default)
  else
    '(' :: joinSep [',', ' '] (shape.elements.map ArrayShapeToString) ++ [')']

/-- `ArrayShapeFromString`: reject `(`, match `([^\[]+)\[(.*)\]`, look the
type token up by `std::find` (distance 13 when absent — no error), and
`std::stoi` each comma-separated dimension token (throwing on a bad
token). -/
def ArrayShapeFromString (s : Chars) : Except Failure ArrayShape :=
  match Check (!(s.contains '(')) "Tuple shape is not supported" with
  | .error e => .error e
  | .ok _ =>
    match bracketMatch s with
    | none => .error (.diagnostic "Shape not found")
    | some (typeTok, dimsTok) =>
      match (getlineSplit dimsTok ',').mapM stoiInt with
      | none => .error .exception
      | some dims =>
        .ok { type := List.findIdx (fun t => t == typeTok) primitiveTokens,
              dimensions := dims }

/-- Strip one trailing comma, as `TupleShapeFromString` does per piece. -/
def stripTrailingComma (t : Chars) : Chars :=
  if t.getLast? = some ',' then t.dropLast else t

/-- `TupleShapeFromString`: text not starting with `(` is a single array
shape; otherwise the outer parentheses are stripped, the interior split
on spaces, trailing commas stripped, and each piece parsed. -/
def TupleShapeFromString (s : Chars) : Except Failure TupleShape :=
  match s with
  | '(' :: _ =>
    match (getlineSplit ((s.drop 1).dropLast) ' ').mapM
        (fun t => ArrayShapeFromString (stripTrailingComma t)) with
    | .error e => .error e
    | .ok out => .ok { elements := out }
  | _ =>
    match ArrayShapeFromString s with
    | .error e => .error e
    | .ok sh => .ok { elements := [sh] }

/-- `ByteSize`: `std::stoi` of the token with its first character cut
off, divided by 8.  For `bf16` the `stoi` throws (`"f16"` has no
leading digit); an out-of-range type is an undefined vector access. -/
def ByteSize (t : Nat) : Except Failure Int :=
  match ptToken t with
  | none => .error .undefinedBehavior
  | some tok =>
    match stoiInt (tok.drop 1) with
    | none => .error .exception
    | some v => .ok (Int.tdiv v 8)

/-- One attempt of the tail of the allocation regex at a suffix:
`, size ([0-9]+), (.+)` — the literal, a maximal nonempty digit run,
`", "`, and at least one remaining character. -/
def sizeTailAt (s : Chars) : Option (Chars × Chars) :=
  match dropLit (", size ".data) s with
  | none => none
  | some r1 =>
    let ds := r1.takeWhile isDigitCh
    if ds = [] then none
    else
      match r1.dropWhile isDigitCh with
      | ',' :: ' ' :: p3 => if p3 = [] then none else some (ds, p3)
      | _ => none

/-- Greedy search for the split of `.+, size ([0-9]+), (.+)`: the
leading `.+` is greedy, so among all suffix positions that complete the
match the last one wins; the flag records that `.+` has consumed at
least one character. -/
def allocTail : Bool → Chars → Option (Chars × Chars)
  | _, [] => none
  | nonempty, s@(_ :: r) =>
    match allocTail true r with
    | some out => some out
    | none => if nonempty then sizeTailAt s else none

/-- The allocation regex `allocation ([0-9]): .+, size ([0-9]+), (.+)`
anchored at the start of `s`: note the index group matches a SINGLE
digit.  Returns (index digit value, size token, trailing descriptor). -/
def matchAllocAt (s : Chars) : Option (Nat × Chars × Chars) :=
  match dropLit ("allocation ".data) s with
  | none => none
  | some r1 =>
    match r1 with
    | d :: ':' :: ' ' :: r2 =>
      if isDigitCh d then
        (allocTail false r2).map (fun p => (d.toNat - 48, p.1, p.2))
      else none
    | _ => none

/-- `std::regex_search` with the allocation regex: try every start
position, leftmost match wins. -/
def matchAllocLine : Chars → Option (Nat × Chars × Chars)
  | [] => none
  | s@(_ :: r) =>
    match matchAllocAt s with
    | some out => some out
    | none => matchAllocLine r

/-- The output regex `output shape is \|([^\|]+)\|,` anchored at the
start of `s`: the literal, a maximal nonempty run free of `|`, then
`|,`. -/
def matchOutputAt (s : Chars) : Option Chars :=
  match dropLit ("output shape is |".data) s with
  | none => none
  | some r1 =>
    let tok := r1.takeWhile (fun c => c ≠ '|')
    if tok = [] then none
    else
      match r1.dropWhile (fun c => c ≠ '|') with
      | '|' :: ',' :: _ => some tok
      | _ => none

/-- `std::regex_search` with the output regex. -/
def matchOutput : Chars → Option Chars
  | [] => none
  | s@(_ :: r) =>
    match matchOutputAt s with
    | some out => some out
    | none => matchOutput r

/-- The parameter regex `parameter ([0-9]+), shape \|([^\|]+)\|`
anchored at the start of `s`. -/
def matchParamAt (s : Chars) : Option (Chars × Chars) :=
  match dropLit ("parameter ".data) s with
  | none => none
  | some r1 =>
    let ds := r1.takeWhile isDigitCh
    if ds = [] then none
    else
      match dropLit (", shape |".data) (r1.dropWhile isDigitCh) with
      | none => none
      | some r2 =>
        let tok := r2.takeWhile (fun c => c ≠ '|')
        if tok = [] then none
        else
          match r2.dropWhile (fun c => c ≠ '|') with
          | '|' :: _ => some (ds, tok)
          | _ => none

/-- `std::regex_search` with the parameter regex. -/
def matchParam : Chars → Option (Chars × Chars)
  | [] => none
  | s@(_ :: r) =>
    match matchParamAt s with
    | some out => some out
    | none => matchParam r

/-- `BufferAssignment` from driver.cc.  `buffers_shape` models the
`std::map<int, TupleShape>` as an association list where the most
recent insertion for a key shadows older ones; `output_idx` keeps the
source's `-1` sentinel. -/
structure BufferAssignment where
  buffers_size : List Int := []
  buffers_shape : List (Int × TupleShape) := []
  params_idx : List Int := []
  output_idx : Int := -1
deriving DecidableEq, Repr, Inhabited

/-- Lookup in the shape map (first, i.e. most recent, binding wins). -/
def lookupShape (m : List (Int × TupleShape)) (k : Int) : Option TupleShape :=
  match m with
  | [] => none
  | (k2, v) :: r => if k2 = k then some v else lookupShape r k

/-- The `output shape is |...|,` branch of the parse loop: check there
was no previous output, record the index and parse the shape. -/
def applyOutputMarker (idx : Nat) (rest : Chars) (st : BufferAssignment) :
    Except Failure BufferAssignment :=
  match matchOutput rest with
  | none => .ok st
  | some oTok =>
    match Check (st.output_idx = -1) "Multiple out-parameters" with
    | .error e => .error e
    | .ok _ =>
      match TupleShapeFromString oTok with
      | .error e => .error e
      | .ok sh =>
        .ok { st with output_idx := (idx : Int),
                      buffers_shape := ((idx : Int), sh) :: st.buffers_shape }

/-- The `parameter <pidx>, shape |...|` branch of the parse loop: the
PARAMETER NUMBER is appended to `params_idx`, while the shape is keyed
by the ALLOCATION index. -/
def applyParamMarker (idx : Nat) (rest : Chars) (st : BufferAssignment) :
    Except Failure BufferAssignment :=
  match matchParam rest with
  | none => .ok st
  | some (pTok, psTok) =>
    match stoiInt pTok with
    | none => .error .exception
    | some pv =>
      let st2 := { st with params_idx := st.params_idx ++ [pv] }
      match TupleShapeFromString psTok with
      | .error e => .error e
      | .ok sh =>
        .ok { st2 with buffers_shape := ((idx : Int), sh) :: st2.buffers_shape }

/-- Processing of one input line by `ParseBufferAssignment`: lines that
do not match the allocation regex are ignored; a matching line must
carry the next expected index, appends its size, and is then searched
for the output and parameter markers. -/
def processLine (st : BufferAssignment) (line : Chars) :
    Except Failure BufferAssignment :=
  match matchAllocLine line with
  | none => .ok st
  | some (idx, szTok, rest) =>
    match stoiInt szTok with
    | none => .error .exception
    | some sz =>
      match Check (idx = st.buffers_size.length) "Unordered allocations in input" with
      | .error e => .error e
      | .ok _ =>
        match applyOutputMarker idx rest
            { st with buffers_size := st.buffers_size ++ [sz] } with
        | .error e => .error e
        | .ok st2 => applyParamMarker idx rest st2

/-- The line loop of `ParseBufferAssignment`. -/
def runLines (st : BufferAssignment) : List Chars → Except Failure BufferAssignment
  | [] => .ok st
  | l :: r =>
    match processLine st l with
    | .error e => .error e
    | .ok st2 => runLines st2 r

/-- `ParseBufferAssignment`, over the list of lines of the input file:
run the line loop, then require that some line declared the output. -/
def ParseBufferAssignment (lines : List Chars) : Except Failure BufferAssignment :=
  match runLines {} lines with
  | .error e => .error e
  | .ok a =>
    match Check (a.output_idx ≠ -1) "Output not set" with
    | .error e => .error e
    | .ok _ => .ok a

/-- 2^32, the modulus of all mt19937 word arithmetic. -/
def M32 : Nat := 4294967296

/-- The mt19937 state-initialization recurrence
`x[i] = 1812433253 * (x[i-1] ^ (x[i-1] >> 30)) + i (mod 2^32)`. -/
def mtInitAux : Nat → Nat → Nat → List Nat
  | 0, _, _ => []
  | k + 1, prev, i =>
    let x := (1812433253 * (prev ^^^ (prev >>> 30)) + i) % M32
    x :: mtInitAux k x (i + 1)

/-- The 624-word mt19937 state seeded as `std::mt19937(seed)` seeds it. -/
def mtInitList (seed : Nat) : List Nat :=
  (seed % M32) :: mtInitAux 623 (seed % M32) 1

/-- One word of the mt19937 twist:
`y = (x[i] & 0x80000000) | (x[i+1] & 0x7fffffff)`,
`x[i] = src ^ (y >> 1) ^ (y odd ? 0x9908b0df : 0)` with
`src = x[(i+397) mod 624]` taken from the in-place-updated state. -/
def twistVal (xi xi1 src : Nat) : Nat :=
  let y := (xi &&& 2147483648) ||| (xi1 &&& 2147483647)
  src ^^^ (y >>> 1) ^^^ (if y % 2 = 1 then 2567483615 else 0)

/-- Map `f` over three lists simultaneously. -/
def zip3With {α : Type} (f : α → α → α → α) : List α → List α → List α → List α
  | a :: as, b :: bs, c :: cs => f a b c :: zip3With f as bs cs
  | _, _, _ => []

/-- The full in-place mt19937 twist of a 624-word block, phrased
functionally: positions 0–226 read their `+397` source from the old
block, positions 227–622 read it from the freshly written words 227
places back, and position 623 also reads its successor word from the
new position 0. -/
def twistOnce (l : List Nat) : List Nat :=
  let a := zip3With twistVal l (l.drop 1) (l.drop 397)
  let b := zip3With twistVal (l.drop 227) (l.drop 228) a
  let c := zip3With twistVal (l.drop 454) (l.drop 455) b
  let w := twistVal (l.getD 623 0) (a.getD 0 0) (b.getD 169 0)
  a ++ b ++ c ++ [w]

/-- The mt19937 output tempering. -/
def temper (y0 : Nat) : Nat :=
  let y1 := y0 ^^^ (y0 >>> 11)
  let y2 := y1 ^^^ ((y1 <<< 7) &&& 2636928640)
  let y3 := y2 ^^^ ((y2 <<< 15) &&& 4022730752)
  y3 ^^^ (y3 >>> 18)

/-- Tempered outputs of `k` successive twisted blocks. -/
def mtBlocks : List Nat → Nat → List Nat
  | _, 0 => []
  | st, k + 1 =>
    let t := twistOnce st
    t.map temper ++ mtBlocks t k

/-- The first `n` outputs of `std::mt19937(seed)` (a freshly
constructed engine twists before its first output). -/
def mtOutputs (seed n : Nat) : List Nat :=
  (mtBlocks (mtInitList seed) (n / 624 + 1)).take n

/-- The rejection loop of libstdc++'s `uniform_int_distribution`:
draw raw engine words until one is below `past`.  Runs off a finite
word supply (modelling fuel for a loop that in C++ almost never
rejects). -/
def drawLoop (past : Nat) : List Nat → Option (Nat × List Nat)
  | [] => none
  | u :: rest => if u < past then some (u, rest) else drawLoop past rest

/-- `n` accepted draws mapped through `f` (the post-scaling of
libstdc++'s `uniform_int_distribution`); stops early if the word
supply runs dry. -/
def drawN (past : Nat) (f : Nat → Int) : Nat → List Nat → List Int
  | 0, _ => []
  | k + 1, stream =>
    match drawLoop past stream with
    | none => []
    | some (u, rest) => f u :: drawN past f k rest

/-- Acceptance bound and value map of
`std::uniform_int_distribution<T>(-100, 100)` under libstdc++, per
`FillIntT` instantiation.  For the signed types the range is 201 and
`value = -100 + u / scaling`.  For the unsigned types the bounds wrap
(`T(-100) > T(100)`), violating the distribution's `a <= b`
precondition; libstdc++ then computes with `urange = b - a mod 2^w`,
giving the degenerate maps below.  Type index order: s16 s32 s64 u8
u16 u32 u64. -/
def intDistParams (t : Nat) : Nat × (Nat → Int) :=
  if t = 3 then (4294967241, fun u => ((u + 156) % 256 : Nat))
  else if t = 4 then (4294901961, fun u => ((u + 65436) % 65536 : Nat))
  else if t = 5 then
    (4294967196, fun u => ((u / 21367996 + 4294967196) % 4294967296 : Nat))
  else if t = 6 then
    (4294967196,
     fun u => ((u / 21367996 + 18446744073709551516) % 18446744073709551616 : Nat))
  else (4294967196, fun u => -100 + (u / 21367996 : Nat))

/-- `FillIntT<T>`: a fresh `std::mt19937(42)` and `n` draws of
`uniform_int_distribution<T>(-100, 100)`. -/
def fillIntDraws (t : Nat) (n : Nat) : List Int :=
  let p := intDistParams t
  drawN p.1 p.2 n (mtOutputs 42 (n + 8))

/-- One generated value: integral types carry the drawn integer;
floating-point values are kept as the raw engine words that
`uniform_real_distribution` consumes (one for `float`, two for
`double`), since IEEE arithmetic is not modelled. -/
inductive Val where
  | int (i : Int)
  | real32 (u : Nat)
  | real64 (u1 u2 : Nat)
deriving DecidableEq, Repr

/-- The values written into one buffer. -/
abbrev Contents := List Val

/-- Pair consecutive engine words (for `double` draws). -/
def pairUp : List Nat → List (Nat × Nat)
  | u1 :: u2 :: r => (u1, u2) :: pairUp r
  | _ => []

/-- `Fill(buffer, shape)`: dispatch on the primitive type.  F16, BF16,
C64, C128 exit with `Unsupported type: <token>`; an out-of-enum type
value falls through the `switch` and writes nothing. -/
def Fill (shape : ArrayShape) : Except Failure Contents :=
  if shape.type = 7 ∨ shape.type = 8 ∨ shape.type = 11 ∨ shape.type = 12 then
    .error (.diagnostic ("Unsupported type: " ++ ptNameString shape.type))
  else if shape.type ≤ 6 then
    .ok ((fillIntDraws shape.type (GetNumElements shape).toNat).map Val.int)
  else if shape.type = 9 then
    .ok ((mtOutputs 42 (GetNumElements shape).toNat).map Val.real32)
  else if shape.type = 10 then
    .ok ((pairUp (mtOutputs 42 (2 * (GetNumElements shape).toNat))).map
      (fun p => Val.real64 p.1 p.2))
  else .ok []

/-- One event on the standard output stream: a literal byte string or a
formatted value. -/
inductive OutEvent where
  | str (s : Chars)
  | val (v : Val)
deriving DecidableEq, Repr

/-- `DisplayT<T>` for an array shape: `n` comma-space separated values
followed by `std::endl`; the same four types as `Fill` exit with
`Unsupported type: <token>`, and an out-of-enum type writes nothing. -/
def Display (contents : Contents) (shape : ArrayShape) :
    Except Failure (List OutEvent) :=
  if shape.type = 7 ∨ shape.type = 8 ∨ shape.type = 11 ∨ shape.type = 12 then
    .error (.diagnostic ("Unsupported type: " ++ ptNameString shape.type))
  else if shape.type ≤ 6 ∨ shape.type = 9 ∨ shape.type = 10 then
    .ok (joinSep [OutEvent.str ", ".data]
          ((List.range (GetNumElements shape).toNat).map
            (fun i => [OutEvent.val (contents.getD i (Val.int 0))]))
        ++ [OutEvent.str ['\n']])
  else .ok []

/-- The per-parameter body of the fill loop in `main`: look the shape
up (`std::map::operator[]` defaults to an empty tuple), require a
single-element tuple, check the element count against
`buffers_size[idx] / ByteSize(type)` (an integer DIVISION, truncating),
then fill.  Returns the element shape and the written contents. -/
def fillOneParam (a : BufferAssignment) (p : Int) :
    Except Failure (ArrayShape × Contents) :=
  match Check ((((lookupShape a.buffers_shape p).getD { elements := [] }).elements.length = 1))
      "Parameters can not be tuples" with
  | .error e => .error e
  | .ok _ =>
    match (if 0 ≤ p then a.buffers_size.get? p.toNat else none) with
    | none => .error .undefinedBehavior
    | some size =>
      match ByteSize (((lookupShape a.buffers_shape p).getD
          { elements := [] }).elements.getD 0 default).type with
      | .error e => .error e
      | .ok w =>
        match Check (GetNumElements (((lookupShape a.buffers_shape p).getD
              { elements := [] }).elements.getD 0 default) = Int.tdiv size w)
            "Unexpected number of elements" with
        | .error e => .error e
        | .ok _ =>
          match Fill (((lookupShape a.buffers_shape p).getD
              { elements := [] }).elements.getD 0 default) with
          | .error e => .error e
          | .ok c =>
            .ok ((((lookupShape a.buffers_shape p).getD
              { elements := [] }).elements.getD 0 default), c)

/-- The fill loop of `main` as a pure map from parameter entries to the
contents written for them (the loop aborts at the first failing
parameter). -/
def fillParams (a : BufferAssignment) : List Int → Except Failure (List (Int × Contents))
  | [] => .ok []
  | p :: r =>
    match fillOneParam a p with
    | .error e => .error e
    | .ok pc =>
      match fillParams a r with
      | .error e => .error e
      | .ok rest => .ok ((p, pc.2) :: rest)

/-- First association for `p` among the filled parameters. -/
def lookupContents (l : List (Int × Contents)) (p : Int) : Option Contents :=
  match l with
  | [] => none
  | (k, c) :: r => if k = p then some c else lookupContents r p

/-- The verbose header `"Filled parameter buffer for param " << p << ": " << endl`. -/
def filledHeader (p : Int) : OutEvent :=
  .str (("Filled parameter buffer for param ".data) ++ intToChars p ++ (": ".data) ++ ['\n'])

/-- The fill loop of `main` with its stream effects: each parameter is
filled; under the verbose flag the header and the buffer contents are
ALSO written to standard output.  Events written before a fatal error
are kept. -/
def fillLoop (verbose : Bool) (a : BufferAssignment) :
    List Int → List OutEvent → List OutEvent × Except Failure Unit
  | [], acc => (acc, .ok ())
  | p :: rest, acc =>
    match fillOneParam a p with
    | .error e => (acc, .error e)
    | .ok (shape, contents) =>
      if verbose then
        match Display contents shape with
        | .error e => (acc ++ [filledHeader p], .error e)
        | .ok devs => fillLoop verbose a rest (acc ++ filledHeader p :: devs)
      else fillLoop verbose a rest acc

/-- `Display(buffer, TupleShape)`: a single element displays as a bare
array (reading the buffer directly); a genuine tuple interprets the
buffer as a pointer table and displays each element buffer, wrapped in
parentheses.  `outFlat` is the output buffer read as values, `outElems`
the element buffers it points to — both supplied by the opaque entry
point. -/
def DisplayTuple (outFlat : Contents) (outElems : List Contents)
    (shape : TupleShape) : Except Failure (List OutEvent) :=
  if shape.elements.length = 1 then
    Display outFlat (shape.elements.getD 0 default)
  else
    match (List.range shape.elements.length).mapM
        (fun i => Display (outElems.getD i []) (shape.elements.getD i default)) with
    | .error e => .error e
    | .ok evss =>
      .ok ((OutEvent.str ['(', '\n']) ::
             joinSep [OutEvent.str [',', ' ', '\n']] evss ++ [OutEvent.str [')', '\n']])

/-- What one driver run writes to standard output, and how it ends.
`verbose` is the presence of the VERBOSE environment variable;
`outFlat`/`outElems` stand for the bytes the externally linked
`EntryModule` left in the output buffer.  Stderr (all `Log` and
diagnostic lines) is not part of the event list. -/
def mainRun (verbose : Bool) (lines : List Chars)
    (outFlat : Contents) (outElems : List Contents) :
    List OutEvent × Except Failure Unit :=
  match ParseBufferAssignment lines with
  | .error e => ([], .error e)
  | .ok a =>
    match fillLoop verbose a a.params_idx [] with
    | (evs, .error e) => (evs, .error e)
    | (evs, .ok ()) =>
      let evs2 := evs ++ [OutEvent.str ("Output:".data ++ ['\n'])]
      let osh := (lookupShape a.buffers_shape a.output_idx).getD { elements := [] }
      match DisplayTuple outFlat outElems osh with
      | .error e => (evs2, .error e)
      | .ok devs => (evs2 ++ devs, .ok ())

/-- The well-formed array-shape texts of the spec grammar
`TYPE "[" DIM ("," DIM)* "]"`, presented constructively: a canonical
type token and canonical decimal numerals for the dimensions (the
texts the formatter itself produces). -/
def arrayTextN (k : Nat) (ds : List Nat) : Chars :=
  (primitiveTokens.getD k []) ++ ('[' :: (joinSep [','] (ds.map natToChars) ++ [']']))

/-- The well-formed tuple-shape texts: parenthesized array-shape texts
joined by `", "`. -/
def tupleTextN (specs : List (Nat × List Nat)) : Chars :=
  '(' :: (joinSep [',', ' '] (specs.map (fun s => arrayTextN s.1 s.2)) ++ [')'])

/-- The output-index invariant claimed for a parsed assignment: either
no output was declared yet, or the recorded index is a valid position
in `buffers_size` with a shape entry. -/
def AssignInv (st : BufferAssignment) : Prop :=
  st.output_idx = -1 ∨
    (0 ≤ st.output_idx ∧ st.output_idx < st.buffers_size.length ∧
     (lookupShape st.buffers_shape st.output_idx).isSome = true)

/-- A one-allocation input file: just an output buffer. -/
def fileOut : List Chars :=
  ["allocation 0: 0x0, size 4, output shape is |s32[]|,".data]

/-- A two-allocation input file: one `s32[]` parameter and the output. -/
def fileParamOut : List Chars :=
  ["allocation 0: 0x0, size 4, parameter 0, shape |s32[]|".data,
   "allocation 1: 0x0, size 4, output shape is |s32[]|,".data]

/-- A file whose parameter marker carries parameter number 7 even
though only allocations 0 and 1 exist. -/
def fileBadParam : List Chars :=
  ["allocation 0: 0x0, size 4, parameter 7, shape |s32[]|".data,
   "allocation 1: 0x0, size 4, output shape is |s32[]|,".data]

/-- The scalar `s32` tuple shape. -/
def s32Scalar : TupleShape := { elements := [{ type := 1, dimensions := [] }] }

/-- An assignment with two `s32[]` parameters sharing one shape. -/
def twoParamAssignment : BufferAssignment :=
  { buffers_size := [4, 4, 4],
    buffers_shape := [(0, s32Scalar), (1, s32Scalar), (2, s32Scalar)],
    params_idx := [0, 1],
    output_idx := 2 }

/-- The assignment `fileOut` parses to. -/
def fileOutParsed : BufferAssignment :=
  { buffers_size := [4]
    buffers_shape := [((0 : Int), s32Scalar)]
    params_idx := []
    output_idx := 0 }

/-- The assignment `fileBadParam` parses to: note `params_idx = [7]`. -/
def fileBadParamParsed : BufferAssignment :=
  { buffers_size := [4, 4]
    buffers_shape := [((1 : Int), s32Scalar), ((0 : Int), s32Scalar)]
    params_idx := [7]
    output_idx := 1 }

/-- An assignment declaring one `s32[]` parameter whose allocation size
is 5 bytes (4 would match). -/
def mismatchAssignment : BufferAssignment :=
  { buffers_size := [5]
    buffers_shape := [((0 : Int), s32Scalar)]
    params_idx := [0]
    output_idx := 0 }

/-- An assignment declaring one `s32[2]` parameter of size 8 bytes. -/
def s32pairAssignment : BufferAssignment :=
  { buffers_size := [8]
    buffers_shape := [((0 : Int), { elements := [{ type := 1, dimensions := [2] }] })]
    params_idx := [0]
    output_idx := 0 }

deriving instance DecidableEq for Except

theorem digitChar_isDigit : ∀ m, isDigitCh (digitChar m) = true := by
  intro m
  rcases m with _|_|_|_|_|_|_|_|_|_ <;> rfl

theorem isDigitCh_cases (c : Char) (h : isDigitCh c = true) :
    c = '0' ∨ c = '1' ∨ c = '2' ∨ c = '3' ∨ c = '4' ∨
    c = '5' ∨ c = '6' ∨ c = '7' ∨ c = '8' ∨ c = '9' := by
  have h2 := of_decide_eq_true h
  simpa using h2

theorem digit_not_space (c : Char) (h : isDigitCh c = true) : isSpaceChar c = false := by
  rcases isDigitCh_cases c h with rfl|rfl|rfl|rfl|rfl|rfl|rfl|rfl|rfl|rfl <;> rfl

theorem digit_ne (c : Char) (h : isDigitCh c = true) :
    c ≠ '-' ∧ c ≠ '+' ∧ c ≠ ',' ∧ c ≠ '[' ∧ c ≠ ']' ∧ c ≠ '(' ∧ c ≠ ' ' ∧ c ≠ '|' := by
  rcases isDigitCh_cases c h with rfl|rfl|rfl|rfl|rfl|rfl|rfl|rfl|rfl|rfl <;> exact (by decide)

theorem digitChar_val (m : Nat) (h : m < 10) : (digitChar m).toNat - 48 = m := by
  interval_cases m <;> rfl

theorem natToCharsF_irrel :
    ∀ f1 f2 n : Nat, n < f1 → n < f2 → natToCharsF f1 n = natToCharsF f2 n := by
  intro f1
  induction f1 with
  | zero => intro f2 n h1 _; omega
  | succ f ih =>
    intro f2 n h1 h2
    cases f2 with
    | zero => omega
    | succ g =>
      simp only [natToCharsF]
      split
      · rfl
      · rename_i hn
        rw [ih g (n / 10) (by omega) (by omega)]

theorem natToChars_unfold (n : Nat) :
    natToChars n =
      if n < 10 then [digitChar n] else natToChars (n / 10) ++ [digitChar (n % 10)] := by
  unfold natToChars
  rw [show natToCharsF (n + 1) n =
    (if n < 10 then [digitChar n] else natToCharsF n (n / 10) ++ [digitChar (n % 10)]) from rfl]
  split
  · rfl
  · rename_i hn
    rw [natToCharsF_irrel n (n / 10 + 1) (n / 10) (by omega) (by omega)]

theorem natToChars_all_digit : ∀ n, ∀ c ∈ natToChars n, isDigitCh c = true := by
  intro n
  induction n using Nat.strong_induction_on with
  | _ n ih =>
    rw [natToChars_unfold]
    split
    · intro c hc
      simp only [List.mem_singleton] at hc
      subst hc
      exact digitChar_isDigit _
    · intro c hc
      rcases List.mem_append.mp hc with h2 | h2
      · exact ih (n / 10) (Nat.div_lt_self (by omega) (by decide)) c h2
      · simp only [List.mem_singleton] at h2
        subst h2
        exact digitChar_isDigit _

theorem natToChars_ne_nil (n : Nat) : natToChars n ≠ [] := by
  rw [natToChars_unfold]
  split
  · simp
  · simp

theorem digitsVal_natToChars : ∀ n, digitsVal (natToChars n) = n := by
  intro n
  induction n using Nat.strong_induction_on with
  | _ n ih =>
    rw [natToChars_unfold]
    split
    · rename_i h
      simp only [digitsVal, List.foldl_cons, List.foldl_nil]
      rw [digitChar_val n h]
      omega
    · rename_i h
      simp only [digitsVal, List.foldl_append, List.foldl_cons, List.foldl_nil]
      have ihv := ih (n / 10) (Nat.div_lt_self (by omega) (by decide))
      simp only [digitsVal] at ihv
      rw [ihv, digitChar_val (n % 10) (Nat.mod_lt n (by decide))]
      omega

theorem takeWhile_all {p : Char → Bool} :
    ∀ l : Chars, (∀ c ∈ l, p c = true) → l.takeWhile p = l := by
  intro l h
  induction l with
  | nil => rfl
  | cons a r ih =>
    simp only [List.takeWhile_cons, h a (List.mem_cons_self a r), if_true]
    simp [ih (fun c hc => h c (List.mem_cons_of_mem a hc))]

theorem dropWhile_all {p : Char → Bool} :
    ∀ l : Chars, (∀ c ∈ l, p c = true) → l.dropWhile p = [] := by
  intro l h
  induction l with
  | nil => rfl
  | cons a r ih =>
    simp only [List.dropWhile_cons, h a (List.mem_cons_self a r), if_true]
    exact ih (fun c hc => h c (List.mem_cons_of_mem a hc))

theorem takeWhile_append_stop {p : Char → Bool} :
    ∀ (t : Chars) (d : Char) (r : Chars), (∀ c ∈ t, p c = true) → p d = false →
      ((t ++ d :: r).takeWhile p = t ∧ (t ++ d :: r).dropWhile p = d :: r) := by
  intro t d r ht hd
  induction t with
  | nil => simp [List.takeWhile_cons, List.dropWhile_cons, hd]
  | cons a t2 ih =>
    have ha : p a = true := ht a (List.mem_cons_self a t2)
    have ih2 := ih (fun c hc => ht c (List.mem_cons_of_mem a hc))
    simp only [List.cons_append, List.takeWhile_cons, List.dropWhile_cons, ha, if_true]
    exact ⟨by simp [ih2.1], ih2.2⟩

theorem stoiInt_natToChars (n : Nat) (h : n ≤ 2147483647) :
    stoiInt (natToChars n) = some (n : Int) := by
  obtain ⟨c, cs, hc⟩ : ∃ c cs, natToChars n = c :: cs := by
    cases hnc : natToChars n with
    | nil => exact absurd hnc (natToChars_ne_nil n)
    | cons c cs => exact ⟨c, cs, rfl⟩
  have hall : ∀ x ∈ c :: cs, isDigitCh x = true := by
    rw [← hc]; exact natToChars_all_digit n
  have hcd : isDigitCh c = true := hall c (List.mem_cons_self c cs)
  have hns : isSpaceChar c = false := digit_not_space c hcd
  have hne := digit_ne c hcd
  have h1 : (c = '-') = False := by simp [hne.1]
  have h2 : (c = '+') = False := by simp [hne.2.1]
  have hval : digitsVal (c :: cs) = n := by rw [← hc]; exact digitsVal_natToChars n
  unfold stoiInt
  rw [hc]
  simp only [List.dropWhile_cons, hns, Bool.false_eq_true, if_false, List.headD_cons,
    h1, h2, or_self, if_false, takeWhile_all (c :: cs) hall, hval, one_mul]
  rw [if_neg (by simp)]
  rw [if_neg (by omega)]

theorem joinSep_ne_nil (sep : Chars) :
    ∀ toks : List Chars, (∀ t ∈ toks, t ≠ []) → toks ≠ [] → joinSep sep toks ≠ [] := by
  intro toks h2 h1
  match toks with
  | [t] => exact h2 t (by simp)
  | t :: t2 :: r =>
    have ht : t ≠ [] := h2 t (by simp)
    simp only [joinSep]
    intro hcontra
    rcases t with _ | ⟨a, t3⟩
    · exact ht rfl
    · simp at hcontra

theorem getlineSplitGo_all (d : Char) :
    ∀ (s acc : Chars), (∀ c ∈ s, c ≠ d) → getlineSplitGo d acc s = [acc.reverse ++ s] := by
  intro s
  induction s with
  | nil => intro acc _; simp [getlineSplitGo]
  | cons c r ih =>
    intro acc h
    have hc : c ≠ d := h c (by simp)
    simp only [getlineSplitGo, if_neg hc]
    rw [ih (c :: acc) (fun x hx => h x (List.mem_cons_of_mem c hx))]
    simp

theorem getlineSplit_eq_single (s : Chars) (d : Char) (h0 : s ≠ [])
    (hall : ∀ c ∈ s, c ≠ d) : getlineSplit s d = [s] := by
  cases s with
  | nil => exact absurd rfl h0
  | cons c r =>
    show getlineSplitGo d [] (c :: r) = [c :: r]
    rw [getlineSplitGo_all d (c :: r) [] hall]
    rfl

theorem getlineSplitGo_delim (d : Char) :
    ∀ (t : Chars) (r acc : Chars), r ≠ [] → (∀ c ∈ t, c ≠ d) →
      getlineSplitGo d acc (t ++ d :: r) = (acc.reverse ++ t) :: getlineSplitGo d [] r := by
  intro t
  induction t with
  | nil =>
    intro r acc hr _
    cases r with
    | nil => exact absurd rfl hr
    | cons x r2 => simp [getlineSplitGo]
  | cons c t2 ih =>
    intro r acc hr h
    have hc : c ≠ d := h c (by simp)
    simp only [List.cons_append, getlineSplitGo, if_neg hc, List.append_eq]
    rw [ih r (c :: acc) hr (fun x hx => h x (List.mem_cons_of_mem c hx))]
    simp

theorem getlineSplit_eq_cons (s t r : Chars) (d : Char) (hs : s = t ++ d :: r)
    (hr : r ≠ []) (ht : ∀ c ∈ t, c ≠ d) :
    getlineSplit s d = t :: getlineSplit r d := by
  subst hs
  have h1 : getlineSplit (t ++ d :: r) d = getlineSplitGo d [] (t ++ d :: r) := by
    cases t with
    | nil => rfl
    | cons a t2 => rfl
  rw [h1, getlineSplitGo_delim d t r [] hr ht]
  cases r with
  | nil => exact absurd rfl hr
  | cons x r2 => rfl

theorem getlineSplit_joinSep (d : Char) :
    ∀ toks : List Chars, (∀ t ∈ toks, t ≠ [] ∧ ∀ c ∈ t, c ≠ d) →
      getlineSplit (joinSep [d] toks) d = toks := by
  intro toks
  induction toks with
  | nil => intro _; simp [joinSep, getlineSplit]
  | cons t rest ih =>
    intro h
    have ht := h t (by simp)
    cases rest with
    | nil => exact getlineSplit_eq_single t d ht.1 ht.2
    | cons t2 r2 =>
      have hrest : ∀ x ∈ t2 :: r2, x ≠ [] ∧ ∀ c ∈ x, c ≠ d :=
        fun x hx => h x (List.mem_cons_of_mem t hx)
      have hjr : joinSep [d] (t2 :: r2) ≠ [] :=
        joinSep_ne_nil [d] (t2 :: r2) (fun x hx => (hrest x hx).1) (by simp)
      rw [getlineSplit_eq_cons (joinSep [d] (t :: t2 :: r2)) t (joinSep [d] (t2 :: r2)) d
        (by simp [joinSep]) hjr ht.2]
      rw [ih hrest]

theorem splitFirst_append (d : Char) :
    ∀ t r : Chars, (∀ c ∈ t, c ≠ d) → splitFirst (t ++ d :: r) d = some (t, r) := by
  intro t
  induction t with
  | nil => intro r _; simp [splitFirst]
  | cons a t2 ih =>
    intro r h
    have ha : a ≠ d := h a (by simp)
    simp only [List.cons_append, splitFirst, if_neg ha, List.append_eq]
    rw [ih r (fun c hc => h c (List.mem_cons_of_mem a hc))]
    rfl

theorem bracketMatch_wf (t d : Chars) (h1 : t ≠ []) (h2 : ∀ c ∈ t, c ≠ '[') :
    bracketMatch (t ++ '[' :: (d ++ [']'])) = some (t, d) := by
  unfold bracketMatch
  rw [splitFirst_append '[' t (d ++ [']']) h2]
  simp [h1, List.getLast?_concat, List.dropLast_concat]

theorem findIdx_eq_length {α : Type} (p : α → Bool) :
    ∀ l : List α, (∀ x ∈ l, p x = false) → List.findIdx p l = l.length := by
  intro l
  induction l with
  | nil => intro _; rfl
  | cons a r ih =>
    intro h
    rw [List.findIdx_cons]
    simp only [h a (by simp), cond_false, List.length_cons]
    rw [ih (fun x hx => h x (List.mem_cons_of_mem a hx))]

theorem findIdx_token (k : Nat) (h : k < 13) :
    List.findIdx (fun t => t == primitiveTokens.getD k []) primitiveTokens = k := by
  interval_cases k <;> rfl

theorem token_facts (k : Nat) (h : k < 13) :
    primitiveTokens.getD k [] ≠ [] ∧
    (∀ c ∈ primitiveTokens.getD k [], c ≠ '[' ∧ c ≠ ']' ∧ c ≠ '(' ∧ c ≠ ')' ∧
      c ≠ ' ' ∧ c ≠ ',' ∧ c ≠ '|') := by
  interval_cases k <;> exact ⟨by decide, by decide⟩

theorem dimsText_chars (ds : List Nat) :
    ∀ c ∈ joinSep [','] (ds.map natToChars), isDigitCh c = true ∨ c = ',' := by
  induction ds with
  | nil => intro c hc; simp [joinSep] at hc
  | cons dh dt ih =>
    intro c hc
    cases dt with
    | nil =>
      simp only [List.map_cons, List.map_nil, joinSep] at hc
      exact Or.inl (natToChars_all_digit dh c hc)
    | cons d2 r2 =>
      simp only [List.map_cons, joinSep] at hc ih ⊢
      rcases List.mem_append.mp hc with hm | hm
      · rcases List.mem_append.mp hm with hm2 | hm2
        · exact Or.inl (natToChars_all_digit dh c hm2)
        · simp only [List.mem_singleton] at hm2
          exact Or.inr hm2
      · exact ih c hm

theorem dims_tokens_wf (ds : List Nat) :
    ∀ t ∈ ds.map natToChars, t ≠ [] ∧ ∀ c ∈ t, c ≠ ',' := by
  intro t ht
  rcases List.mem_map.mp ht with ⟨d, _, rfl⟩
  refine ⟨natToChars_ne_nil d, fun c hc => ?_⟩
  exact (digit_ne c (natToChars_all_digit d c hc)).2.2.1

theorem mapM_stoi_dims (ds : List Nat) (hb : ∀ d ∈ ds, d ≤ 2147483647) :
    (ds.map natToChars).mapM stoiInt = some (ds.map Int.ofNat) := by
  induction ds with
  | nil => rfl
  | cons dh dt ih =>
    simp only [List.map_cons, List.mapM_cons]
    rw [stoiInt_natToChars dh (hb dh (by simp))]
    rw [ih (fun d hd => hb d (List.mem_cons_of_mem dh hd))]
    rfl

theorem arrayText_no_paren (tok : Chars) (ds : List Nat)
    (h2 : ∀ c ∈ tok, c ≠ '(') :
    '(' ∉ (tok ++ '[' :: (joinSep [','] (ds.map natToChars) ++ [']'])) := by
  intro hm
  rcases List.mem_append.mp hm with hm1 | hm1
  · exact h2 '(' hm1 rfl
  · rcases List.mem_cons.mp hm1 with heq | hm2
    · exact absurd heq (by decide)
    · rcases List.mem_append.mp hm2 with hm3 | hm3
      · rcases dimsText_chars ds '(' hm3 with hd | hd
        · exact absurd hd (by decide)
        · exact absurd hd (by decide)
      · simp at hm3

theorem arrayText_generic (tok : Chars) (ds : List Nat)
    (h1 : tok ≠ []) (h2 : ∀ c ∈ tok, c ≠ '[' ∧ c ≠ '(')
    (hb : ∀ d ∈ ds, d ≤ 2147483647) :
    ArrayShapeFromString (tok ++ ('[' :: (joinSep [','] (ds.map natToChars) ++ [']']))) =
      .ok { type := List.findIdx (fun t => t == tok) primitiveTokens,
            dimensions := ds.map Int.ofNat } := by
  have hnp := arrayText_no_paren tok ds (fun c hc => (h2 c hc).2)
  have hnoparen : (List.contains (tok ++ '[' :: (joinSep [','] (ds.map natToChars) ++ [']'])) '(') = false := by
    rw [← Bool.not_eq_true]
    intro hcon
    exact hnp (List.elem_iff.mp hcon)
  unfold ArrayShapeFromString
  rw [hnoparen]
  rw [show Check (!false) "Tuple shape is not supported" = Except.ok () from rfl]
  rw [bracketMatch_wf tok (joinSep [','] (ds.map natToChars)) h1 (fun c hc => (h2 c hc).1)]
  simp only []
  rw [getlineSplit_joinSep ',' (ds.map natToChars) (dims_tokens_wf ds)]
  rw [mapM_stoi_dims ds hb]

theorem ptToken_getD (k : Nat) : (ptToken k).getD [] = primitiveTokens.getD k [] := by
  simp [ptToken, List.getD]

theorem intToChars_ofNat (n : Nat) : intToChars (Int.ofNat n) = natToChars n := by
  have h : ¬ (Int.ofNat n < 0) := Int.not_lt.mpr (Int.ofNat_nonneg n)
  unfold intToChars
  rw [if_neg h]
  simp

theorem ArrayShapeToString_wf (k : Nat) (ds : List Nat) :
    ArrayShapeToString { type := k, dimensions := ds.map Int.ofNat } = arrayTextN k ds := by
  unfold ArrayShapeToString arrayTextN
  rw [ptToken_getD]
  have hmap : (ds.map Int.ofNat).map intToChars = ds.map natToChars := by
    rw [List.map_map]
    exact List.map_congr_left (fun d _ => intToChars_ofNat d)
  rw [hmap]
  simp

theorem arrayText_roundtrip (k : Nat) (ds : List Nat) (hk : k < 13)
    (hb : ∀ d ∈ ds, d ≤ 2147483647) :
    ArrayShapeFromString (arrayTextN k ds) =
      .ok { type := k, dimensions := ds.map Int.ofNat } := by
  have hfacts := token_facts k hk
  have h := arrayText_generic (primitiveTokens.getD k []) ds hfacts.1
    (fun c hc => ⟨(hfacts.2 c hc).1, (hfacts.2 c hc).2.2.1⟩) hb
  rw [show arrayTextN k ds =
    (primitiveTokens.getD k []) ++ ('[' :: (joinSep [','] (ds.map natToChars) ++ [']'])) from rfl]
  rw [h, findIdx_token k hk]

theorem arrayTextN_concat (k : Nat) (ds : List Nat) :
    arrayTextN k ds =
      (primitiveTokens.getD k [] ++ '[' :: joinSep [','] (ds.map natToChars)) ++ [']'] := by
  simp [arrayTextN]

theorem arrayTextN_ne_nil (k : Nat) (ds : List Nat) : arrayTextN k ds ≠ [] := by
  rw [arrayTextN_concat]
  simp

theorem arrayTextN_no_space (k : Nat) (ds : List Nat) (hk : k < 13) :
    ∀ c ∈ arrayTextN k ds, c ≠ ' ' := by
  intro c hc
  unfold arrayTextN at hc
  rcases List.mem_append.mp hc with hm | hm
  · exact ((token_facts k hk).2 c hm).2.2.2.2.1
  · rcases List.mem_cons.mp hm with rfl | hm2
    · decide
    · rcases List.mem_append.mp hm2 with hm3 | hm3
      · rcases dimsText_chars ds c hm3 with hd | rfl
        · intro hcc; subst hcc; exact absurd hd (by decide)
        · decide
      · simp only [List.mem_singleton] at hm3; subst hm3; decide

theorem stripTrailingComma_arrayTextN (k : Nat) (ds : List Nat) :
    stripTrailingComma (arrayTextN k ds) = arrayTextN k ds := by
  unfold stripTrailingComma
  rw [arrayTextN_concat, List.getLast?_concat]
  simp

theorem stripTrailingComma_concat (a : Chars) :
    stripTrailingComma (a ++ [',']) = a := by
  unfold stripTrailingComma
  rw [List.getLast?_concat]
  simp [List.dropLast_concat]

theorem tuple_pieces_parse :
    ∀ specs : List (Nat × List Nat), specs ≠ [] →
    (∀ s ∈ specs, s.1 < 13 ∧ ∀ d ∈ s.2, d ≤ 2147483647) →
    (getlineSplit (joinSep [',', ' '] (specs.map (fun s => arrayTextN s.1 s.2))) ' ').mapM
        (fun t => ArrayShapeFromString (stripTrailingComma t)) =
      .ok (specs.map (fun s => { type := s.1, dimensions := s.2.map Int.ofNat })) := by
  intro specs
  induction specs with
  | nil => intro hne _; exact absurd rfl hne
  | cons s rest ih =>
    intro _ hwf
    have hs := hwf s (by simp)
    cases rest with
    | nil =>
      simp only [List.map_cons, List.map_nil, joinSep]
      rw [getlineSplit_eq_single (arrayTextN s.1 s.2) ' ' (arrayTextN_ne_nil s.1 s.2)
        (arrayTextN_no_space s.1 s.2 hs.1)]
      simp only [List.mapM_cons, List.mapM_nil]
      rw [stripTrailingComma_arrayTextN]
      rw [arrayText_roundtrip s.1 s.2 hs.1 hs.2]
      rfl
    | cons s2 r2 =>
      have hrest : ∀ x ∈ s2 :: r2, x.1 < 13 ∧ ∀ d ∈ x.2, d ≤ 2147483647 :=
        fun x hx => hwf x (List.mem_cons_of_mem s hx)
      have hjoin : joinSep [',', ' '] ((s :: s2 :: r2).map (fun x => arrayTextN x.1 x.2)) =
          (arrayTextN s.1 s.2 ++ [',']) ++
            ' ' :: joinSep [',', ' '] ((s2 :: r2).map (fun x => arrayTextN x.1 x.2)) := by
        simp [joinSep]
      have hjr : joinSep [',', ' '] ((s2 :: r2).map (fun x => arrayTextN x.1 x.2)) ≠ [] := by
        apply joinSep_ne_nil
        · intro t ht
          rcases List.mem_map.mp ht with ⟨x, _, rfl⟩
          exact arrayTextN_ne_nil x.1 x.2
        · simp
      have htcomma : ∀ c ∈ arrayTextN s.1 s.2 ++ [','], c ≠ ' ' := by
        intro c hc
        rcases List.mem_append.mp hc with hm | hm
        · exact arrayTextN_no_space s.1 s.2 hs.1 c hm
        · simp only [List.mem_singleton] at hm; subst hm; decide
      rw [hjoin]
      rw [getlineSplit_eq_cons _ (arrayTextN s.1 s.2 ++ [','])
        (joinSep [',', ' '] ((s2 :: r2).map (fun x => arrayTextN x.1 x.2))) ' ' rfl hjr htcomma]
      simp only [List.mapM_cons]
      rw [stripTrailingComma_concat]
      rw [arrayText_roundtrip s.1 s.2 hs.1 hs.2]
      have ihr := ih (by simp) hrest
      simp only [List.map_cons] at ihr ⊢
      rw [ihr]
      rfl

theorem TupleShapeFromString_paren (Y : Chars) :
    TupleShapeFromString ('(' :: Y) =
      match (getlineSplit (('(' :: Y).drop 1).dropLast ' ').mapM
          (fun t => ArrayShapeFromString (stripTrailingComma t)) with
      | .error e => .error e
      | .ok out => .ok { elements := out } := rfl

theorem tupleText_parse (specs : List (Nat × List Nat)) (hne : specs ≠ [])
    (hwf : ∀ s ∈ specs, s.1 < 13 ∧ ∀ d ∈ s.2, d ≤ 2147483647) :
    TupleShapeFromString (tupleTextN specs) =
      .ok { elements :=
        specs.map (fun s => { type := s.1, dimensions := s.2.map Int.ofNat }) } := by
  unfold tupleTextN
  rw [TupleShapeFromString_paren]
  have hdrop : (('(' :: (joinSep [',', ' '] (specs.map (fun s => arrayTextN s.1 s.2)) ++ [')'])).drop 1).dropLast
      = joinSep [',', ' '] (specs.map (fun s => arrayTextN s.1 s.2)) := by
    simp [List.dropLast_concat]
  rw [hdrop]
  rw [tuple_pieces_parse specs hne hwf]

theorem tupleShape_format (specs : List (Nat × List Nat)) (h2 : specs.length ≠ 1) :
    TupleShapeToString
        { elements := specs.map (fun s => { type := s.1, dimensions := s.2.map Int.ofNat }) } =
      tupleTextN specs := by
  unfold TupleShapeToString tupleTextN
  rw [if_neg (by simpa using h2)]
  have hmap : (specs.map (fun s =>
      ({ type := s.1, dimensions := s.2.map Int.ofNat } : ArrayShape))).map ArrayShapeToString =
      specs.map (fun s => arrayTextN s.1 s.2) := by
    rw [List.map_map]
    exact List.map_congr_left (fun s _ => ArrayShapeToString_wf s.1 s.2)
  simp only [TupleShape.elements] at hmap ⊢
  rw [hmap]
  simp

theorem tupleText_single_parse (k : Nat) (ds : List Nat) (hk : k < 13)
    (hb : ∀ d ∈ ds, d ≤ 2147483647) :
    TupleShapeFromString ('(' :: (arrayTextN k ds ++ [')'])) =
      .ok { elements := [{ type := k, dimensions := ds.map Int.ofNat }] } := by
  rw [TupleShapeFromString_paren]
  have hdrop : (('(' :: (arrayTextN k ds ++ [')'])).drop 1).dropLast = arrayTextN k ds := by
    simp [List.dropLast_concat]
  rw [hdrop]
  rw [getlineSplit_eq_single (arrayTextN k ds) ' ' (arrayTextN_ne_nil k ds)
    (arrayTextN_no_space k ds hk)]
  simp only [List.mapM_cons, List.mapM_nil]
  rw [stripTrailingComma_arrayTextN, arrayText_roundtrip k ds hk hb]
  rfl

/-- C8: for every well-formed array-shape text (a canonical primitive
token and canonical decimal dimension numerals in `int` range),
formatting the parsed shape reproduces the text exactly; well-formed
tuple-shape texts with at least two elements round-trip the same way,
while one-element tuple text round-trips to the bare array form with
the parentheses stripped. -/
theorem shape_text_roundtrip :
    (∀ k ds, k < 13 → (∀ d ∈ ds, d ≤ 2147483647) →
      (ArrayShapeFromString (arrayTextN k ds)).map ArrayShapeToString =
        .ok (arrayTextN k ds)) ∧
    (∀ specs : List (Nat × List Nat), 2 ≤ specs.length →
      (∀ s ∈ specs, s.1 < 13 ∧ ∀ d ∈ s.2, d ≤ 2147483647) →
      (TupleShapeFromString (tupleTextN specs)).map TupleShapeToString =
        .ok (tupleTextN specs)) ∧
    (∀ k ds, k < 13 → (∀ d ∈ ds, d ≤ 2147483647) →
      (TupleShapeFromString ('(' :: (arrayTextN k ds ++ [')']))).map TupleShapeToString =
        .ok (arrayTextN k ds)) := by
  refine ⟨fun k ds hk hb => ?_, fun specs hlen hwf => ?_, fun k ds hk hb => ?_⟩
  · rw [arrayText_roundtrip k ds hk hb]
    simp only [Except.map]
    rw [ArrayShapeToString_wf]
  · rw [tupleText_parse specs (by intro hnil; subst hnil; simp at hlen) hwf]
    simp only [Except.map]
    rw [tupleShape_format specs (by omega)]
  · rw [tupleText_single_parse k ds hk hb]
    simp only [Except.map]
    unfold TupleShapeToString
    rw [if_pos (by simp)]
    simp only [List.getD_cons_zero]
    rw [ArrayShapeToString_wf]

theorem shape_text_roundtrip_witness :
    (ArrayShapeFromString (arrayTextN 9 [2, 3])).map ArrayShapeToString =
        .ok (arrayTextN 9 [2, 3]) ∧
    (TupleShapeFromString (tupleTextN [(9, [10, 20]), (5, [])])).map TupleShapeToString =
        .ok (tupleTextN [(9, [10, 20]), (5, [])]) ∧
    (TupleShapeFromString ('(' :: (arrayTextN 10 [7] ++ [')']))).map TupleShapeToString =
        .ok (arrayTextN 10 [7]) :=
  ⟨shape_text_roundtrip.1 9 [2, 3] (by decide) (by decide),
   shape_text_roundtrip.2.1 [(9, [10, 20]), (5, [])] (by decide) (by decide),
   shape_text_roundtrip.2.2 10 [7] (by decide) (by decide)⟩

/-- C7: for every buffer whose declared primitive type is F16 (7),
BF16 (8), C64 (11) or C128 (12), generation and display both abort the
run with the fatal diagnostic `Unsupported type: <token>` naming the
type, before producing any value of that buffer. -/
theorem unsupported_type_fill_display_error (t : Nat) (dims : List Int) (c : Contents)
    (h : t = 7 ∨ t = 8 ∨ t = 11 ∨ t = 12) :
    Fill { type := t, dimensions := dims } =
      .error (.diagnostic ("Unsupported type: " ++ ptNameString t)) ∧
    Display c { type := t, dimensions := dims } =
      .error (.diagnostic ("Unsupported type: " ++ ptNameString t)) := by
  rcases h with rfl | rfl | rfl | rfl <;>
    exact ⟨by simp [Fill], by simp [Display]⟩

theorem unsupported_type_fill_display_error_witness :
    Fill { type := 8, dimensions := [2] } =
      .error (.diagnostic ("Unsupported type: " ++ ptNameString 8)) ∧
    Display [] { type := 8, dimensions := [2] } =
      .error (.diagnostic ("Unsupported type: " ++ ptNameString 8)) :=
  unsupported_type_fill_display_error 8 [2] [] (by decide)

set_option maxRecDepth 8000 in
/-- C9: the claim that every generated integral value lies in
[-100, 100] fails for the unsigned types: `uniform_int_distribution<T>(-100, 100)`
with unsigned `T` wraps the lower bound (violating the distribution's
`a <= b` precondition), and under the libstdc++ algorithm a `u8` buffer
receives values across 0..255 — here the third value of `u8[3]` is 248. -/
theorem fill_u8_escapes_bounds :
    Fill { type := 3, dimensions := [3] } =
      .ok [Val.int 2, Val.int 79, Val.int 248] ∧
    ¬ ((248 : Int) ≤ 100) := by
  exact ⟨rfl, by decide⟩

/-- C3 (amended): array-shape parsing fails with a fatal diagnostic
(`Shape not found`) exactly when the bracket regex does not match (and
the text has no `(`); an UNRECOGNIZED type token with well-formed
brackets and dimensions does NOT fail — the parse returns a shape whose
type is the out-of-range enum value 13; and a dimension token that is
not a valid integer aborts via an uncaught `std::stoi` exception, not a
diagnostic. -/
theorem array_shape_error_characterization :
    (∀ s : Chars, s.contains '(' = false → bracketMatch s = none →
      ArrayShapeFromString s = .error (.diagnostic "Shape not found")) ∧
    (∀ (tok : Chars) (ds : List Nat), tok ≠ [] → ('[' ∉ tok) → ('(' ∉ tok) →
      tok ∉ primitiveTokens → (∀ d ∈ ds, d ≤ 2147483647) →
      ArrayShapeFromString (tok ++ ('[' :: (joinSep [','] (ds.map natToChars) ++ [']']))) =
        .ok { type := 13, dimensions := ds.map Int.ofNat }) ∧
    (∀ (tok dtok : Chars), tok ≠ [] → ('[' ∉ tok) → ('(' ∉ tok) → ('(' ∉ dtok) →
      dtok ≠ [] → (∀ c ∈ dtok, c ≠ ',') → stoiInt dtok = none →
      ArrayShapeFromString (tok ++ ('[' :: (dtok ++ [']']))) = .error .exception) := by
  refine ⟨fun s hc hbr => ?_, fun tok ds h1 h2 h3 h4 hb => ?_, fun tok dtok h1 h2 h3 h4 h5 h6 h7 => ?_⟩
  · unfold ArrayShapeFromString
    rw [hc]
    rw [show Check (!false) "Tuple shape is not supported" = Except.ok () from rfl]
    rw [hbr]
  · have h := arrayText_generic tok ds h1
      (fun c hcc => ⟨fun hq => h2 (hq ▸ hcc), fun hq => h3 (hq ▸ hcc)⟩) hb
    rw [h]
    have hall : ∀ x ∈ primitiveTokens, (fun t => t == tok) x = false := by
      intro x hx
      rw [beq_eq_false_iff_ne]
      intro hq
      exact h4 (hq ▸ hx)
    rw [findIdx_eq_length (fun t => t == tok) primitiveTokens hall]
    rfl
  · have hnp : '(' ∉ (tok ++ ('[' :: (dtok ++ [']']))) := by
      intro hm
      rcases List.mem_append.mp hm with hm1 | hm1
      · exact h3 hm1
      · rcases List.mem_cons.mp hm1 with heq | hm2
        · exact absurd heq (by decide)
        · rcases List.mem_append.mp hm2 with hm3 | hm3
          · exact h4 hm3
          · simp at hm3
    have hcf : (List.contains (tok ++ ('[' :: (dtok ++ [']']))) '(') = false := by
      rw [← Bool.not_eq_true]
      intro hcon
      exact hnp (List.elem_iff.mp hcon)
    unfold ArrayShapeFromString
    rw [hcf]
    rw [show Check (!false) "Tuple shape is not supported" = Except.ok () from rfl]
    rw [bracketMatch_wf tok dtok h1 (fun c hcc hq => h2 (hq ▸ hcc))]
    simp only []
    rw [getlineSplit_eq_single dtok ',' h5 h6]
    simp only [List.mapM_cons, List.mapM_nil, h7]
    rfl

theorem array_shape_error_characterization_witness :
    ArrayShapeFromString ("f32".data) = .error (.diagnostic "Shape not found") ∧
    ArrayShapeFromString ("zz".data ++ ('[' :: (joinSep [','] ([2].map natToChars) ++ [']']))) =
      .ok { type := 13, dimensions := [2].map Int.ofNat } ∧
    ArrayShapeFromString ("f32".data ++ ('[' :: ("xy".data ++ [']']))) = .error .exception :=
  ⟨array_shape_error_characterization.1 "f32".data (by decide) (by decide),
   array_shape_error_characterization.2.1 "zz".data [2] (by decide) (by decide) (by decide)
     (by decide) (by decide),
   array_shape_error_characterization.2.2 "f32".data "xy".data (by decide) (by decide)
     (by decide) (by decide) (by decide) (by decide) (by decide)⟩

/-- C3 counterexample: the claim requires a text with an unrecognized
type token to fail with a fatal diagnostic, but `zz[2]` parses without
any error, producing a shape whose type value 13 is outside the
enumeration. -/
theorem unknown_type_parses_ok :
    ArrayShapeFromString ("zz[2]".data) = .ok { type := 13, dimensions := [2] } := by
  rfl

theorem mapM_except_error {α β : Type} (f : α → Except Failure β) :
    ∀ (l : List α) (e : Failure), l.mapM f = .error e → ∃ x ∈ l, f x = .error e := by
  intro l
  induction l with
  | nil => intro e h; exact absurd h (by simp [List.mapM_nil]; exact fun hq => by cases hq)
  | cons a r ih =>
    intro e h
    rw [List.mapM_cons] at h
    cases hfa : f a with
    | error e2 =>
      rw [hfa] at h
      rw [show ((Except.error e2 : Except Failure β) >>= fun v =>
        (r.mapM f) >>= fun vs => pure (v :: vs)) = Except.error e2 from rfl] at h
      injection h with hh
      exact ⟨a, by simp, by rw [hfa, hh]⟩
    | ok v =>
      rw [hfa] at h
      rw [show ((Except.ok v : Except Failure β) >>= fun v =>
        (r.mapM f) >>= fun vs => pure (v :: vs)) =
        ((r.mapM f) >>= fun vs => pure (v :: vs)) from rfl] at h
      cases hr : r.mapM f with
      | error e2 =>
        rw [hr] at h
        rw [show ((Except.error e2 : Except Failure (List β)) >>= fun vs =>
          (pure (v :: vs) : Except Failure (List β))) = Except.error e2 from rfl] at h
        injection h with hh
        rcases ih e2 hr with ⟨x, hx, hfx⟩
        exact ⟨x, List.mem_cons_of_mem a hx, by rw [hfx, hh]⟩
      | ok vs =>
        rw [hr] at h
        rw [show ((Except.ok vs : Except Failure (List β)) >>= fun vs2 =>
          (pure (v :: vs2) : Except Failure (List β))) = Except.ok (v :: vs) from rfl] at h
        exact absurd h (by simp)

theorem ArrayShapeFromString_error_ne (s : Chars) (e : Failure)
    (h : ArrayShapeFromString s = .error e) :
    e ≠ .diagnostic "Unordered allocations in input" ∧
    e ≠ .diagnostic "Unexpected number of elements" := by
  unfold ArrayShapeFromString at h
  split at h
  · rename_i e2 heq
    unfold Check at heq
    split at heq
    · exact absurd heq (by simp)
    · injection heq with hh
      injection h with hh2
      rw [← hh2, ← hh]
      exact ⟨by decide, by decide⟩
  · split at h
    · injection h with hh
      rw [← hh]
      exact ⟨by decide, by decide⟩
    · split at h
      · injection h with hh
        rw [← hh]
        exact ⟨by decide, by decide⟩
      · exact absurd h (by simp)

theorem TupleShapeFromString_error_ne (s : Chars) (e : Failure)
    (h : TupleShapeFromString s = .error e) :
    e ≠ .diagnostic "Unordered allocations in input" ∧
    e ≠ .diagnostic "Unexpected number of elements" := by
  unfold TupleShapeFromString at h
  split at h
  · rename_i Y
    split at h
    · rename_i e2 heq
      injection h with hh
      rcases mapM_except_error _ _ _ heq with ⟨x, _, hfx⟩
      exact hh ▸ ArrayShapeFromString_error_ne _ _ hfx
    · exact absurd h (by simp)
  · split at h
    · rename_i e2 heq
      injection h with hh
      exact hh ▸ ArrayShapeFromString_error_ne _ _ heq
    · exact absurd h (by simp)

theorem applyOutputMarker_ok (idx : Nat) (rest : Chars) (st st2 : BufferAssignment)
    (h : applyOutputMarker idx rest st = .ok st2) :
    st2 = st ∨
    (st.output_idx = -1 ∧ ∃ sh, st2 = { st with
        output_idx := (idx : Int)
        buffers_shape := ((idx : Int), sh) :: st.buffers_shape }) := by
  unfold applyOutputMarker at h
  split at h
  · left; injection h with hh; exact hh.symm
  · split at h
    · exact absurd h (by simp)
    · rename_i u hchk
      have hout : st.output_idx = -1 := by
        unfold Check at hchk
        split at hchk
        · rename_i hcond; exact of_decide_eq_true hcond
        · exact absurd hchk (by simp)
      split at h
      · exact absurd h (by simp)
      · rename_i sh hsh
        right
        refine ⟨hout, sh, ?_⟩
        injection h with hh
        exact hh.symm

theorem applyOutputMarker_error_ne (idx : Nat) (rest : Chars) (st : BufferAssignment)
    (e : Failure) (h : applyOutputMarker idx rest st = .error e) :
    e ≠ .diagnostic "Unordered allocations in input" ∧
    e ≠ .diagnostic "Unexpected number of elements" := by
  unfold applyOutputMarker at h
  split at h
  · exact absurd h (by simp)
  · split at h
    · rename_i e2 hchk
      injection h with hh
      unfold Check at hchk
      split at hchk
      · exact absurd hchk (by simp)
      · injection hchk with hh2
        rw [← hh, ← hh2]
        exact ⟨by decide, by decide⟩
    · split at h
      · rename_i e2 hts
        injection h with hh
        exact hh ▸ TupleShapeFromString_error_ne _ _ hts
      · exact absurd h (by simp)

theorem applyParamMarker_ok (idx : Nat) (rest : Chars) (st st2 : BufferAssignment)
    (h : applyParamMarker idx rest st = .ok st2) :
    st2 = st ∨
    (∃ pv sh, st2 = { st with
        params_idx := st.params_idx ++ [pv]
        buffers_shape := ((idx : Int), sh) :: st.buffers_shape }) := by
  unfold applyParamMarker at h
  split at h
  · left; injection h with hh; exact hh.symm
  · split at h
    · exact absurd h (by simp)
    · rename_i pv hpv
      split at h
      · exact absurd h (by simp)
      · rename_i sh hsh
        right
        refine ⟨pv, sh, ?_⟩
        injection h with hh
        exact hh.symm

theorem applyParamMarker_error_ne (idx : Nat) (rest : Chars) (st : BufferAssignment)
    (e : Failure) (h : applyParamMarker idx rest st = .error e) :
    e ≠ .diagnostic "Unordered allocations in input" ∧
    e ≠ .diagnostic "Unexpected number of elements" := by
  unfold applyParamMarker at h
  split at h
  · exact absurd h (by simp)
  · split at h
    · injection h with hh
      rw [← hh]
      exact ⟨by decide, by decide⟩
    · split at h
      · rename_i e2 hts
        injection h with hh
        exact hh ▸ TupleShapeFromString_error_ne _ _ hts
      · exact absurd h (by simp)

theorem processLine_skip (st : BufferAssignment) (line : Chars)
    (h : matchAllocLine line = none) : processLine st line = .ok st := by
  unfold processLine
  rw [h]

theorem processLine_unordered (st : BufferAssignment) (line : Chars)
    (idx : Nat) (szTok rest : Chars) (sz : Int)
    (hm : matchAllocLine line = some (idx, szTok, rest))
    (hs : stoiInt szTok = some sz)
    (hidx : idx ≠ st.buffers_size.length) :
    processLine st line = .error (.diagnostic "Unordered allocations in input") := by
  unfold processLine
  rw [hm]
  simp only []
  rw [hs]
  simp only []
  rw [show Check (idx = st.buffers_size.length) "Unordered allocations in input" =
    .error (.diagnostic "Unordered allocations in input") from by
      unfold Check; rw [if_neg (by simpa using hidx)]]

theorem processLine_matched (st : BufferAssignment) (line : Chars)
    (idx : Nat) (szTok rest : Chars) (sz : Int)
    (hm : matchAllocLine line = some (idx, szTok, rest))
    (hs : stoiInt szTok = some sz)
    (hidx : idx = st.buffers_size.length) :
    processLine st line =
      match applyOutputMarker idx rest
          { st with buffers_size := st.buffers_size ++ [sz] } with
      | .error e => .error e
      | .ok stb => applyParamMarker idx rest stb := by
  unfold processLine
  rw [hm]
  simp only []
  rw [hs]
  simp only []
  rw [show Check (idx = st.buffers_size.length) "Unordered allocations in input" =
    .ok () from by unfold Check; rw [if_pos (by simpa using hidx)]]

theorem applyOutputMarker_sizes (idx : Nat) (rest : Chars) (st st2 : BufferAssignment)
    (h : applyOutputMarker idx rest st = .ok st2) :
    st2.buffers_size = st.buffers_size := by
  rcases applyOutputMarker_ok idx rest st st2 h with rfl | ⟨_, sh, rfl⟩ <;> rfl

theorem applyParamMarker_sizes (idx : Nat) (rest : Chars) (st st2 : BufferAssignment)
    (h : applyParamMarker idx rest st = .ok st2) :
    st2.buffers_size = st.buffers_size := by
  rcases applyParamMarker_ok idx rest st st2 h with rfl | ⟨pv, sh, rfl⟩ <;> rfl

/-- C5 (amended): the allocation-header regex only matches a
SINGLE-digit index.  For a line it does match, with a parseable size
token, the parser fails with `Unordered allocations in input` exactly
when the digit is not the next expected index, and on success the size
is appended to `buffers_size`; a line the regex does not match — which
includes every allocation-header line whose index has two or more
digits — is silently skipped, leaving the state unchanged. -/
theorem alloc_line_ordered_or_error (st : BufferAssignment) (line : Chars) :
    (∀ (idx : Nat) (szTok rest : Chars) (sz : Int),
      matchAllocLine line = some (idx, szTok, rest) →
      stoiInt szTok = some sz →
      ((processLine st line = .error (.diagnostic "Unordered allocations in input") ↔
          idx ≠ st.buffers_size.length) ∧
       (∀ st2, processLine st line = .ok st2 →
          st2.buffers_size = st.buffers_size ++ [sz]))) ∧
    (matchAllocLine line = none → processLine st line = .ok st) := by
  refine ⟨fun idx szTok rest sz hm hs => ?_, processLine_skip st line⟩
  by_cases hidx : idx = st.buffers_size.length
  · have hP := processLine_matched st line idx szTok rest sz hm hs hidx
    refine ⟨⟨fun herr => ?_, fun hne => absurd hidx hne⟩, fun st2 hok => ?_⟩
    · exfalso
      rw [hP] at herr
      cases hA : applyOutputMarker idx rest
          { st with buffers_size := st.buffers_size ++ [sz] } with
      | error e =>
        rw [hA] at herr
        injection herr with hh
        exact (applyOutputMarker_error_ne _ _ _ _ hA).1 hh
      | ok stb =>
        rw [hA] at herr
        simp only [] at herr
        exact (applyParamMarker_error_ne _ _ _ _ herr).1 rfl
    · rw [hP] at hok
      cases hA : applyOutputMarker idx rest
          { st with buffers_size := st.buffers_size ++ [sz] } with
      | error e => rw [hA] at hok; exact absurd hok (by simp)
      | ok stb =>
        rw [hA] at hok
        simp only [] at hok
        have h1 := applyParamMarker_sizes idx rest stb st2 hok
        have h2 := applyOutputMarker_sizes idx rest _ stb hA
        rw [h1, h2]
  · have hP := processLine_unordered st line idx szTok rest sz hm hs hidx
    refine ⟨⟨fun _ => hidx, fun _ => hP⟩, fun st2 hok => ?_⟩
    rw [hP] at hok
    exact absurd hok (by simp)

theorem alloc_line_ordered_or_error_witness :
    (processLine {} ("allocation 1: 0x0, size 7, x".data) =
        .error (.diagnostic "Unordered allocations in input") ↔
      1 ≠ (({} : BufferAssignment)).buffers_size.length) ∧
    (matchAllocLine ("value: <3 parameter @0>".data) = none →
      processLine {} ("value: <3 parameter @0>".data) = .ok {}) :=
  ⟨((alloc_line_ordered_or_error {} ("allocation 1: 0x0, size 7, x".data)).1
      1 "7".data "x".data 7 rfl rfl).1,
   (alloc_line_ordered_or_error {} ("value: <3 parameter @0>".data)).2⟩

/-- C5 counterexample: `allocation 10: ...` is an allocation-header
line (index 10, size 4), yet the single-digit regex does not match it;
the parser neither appends its size nor fails — the line is silently
skipped and the state is unchanged. -/
theorem alloc_idx_ten_skipped :
    matchAllocLine ("allocation 10: 0x0, size 4, output shape is |s32[]|,".data) = none ∧
    processLine {} ("allocation 10: 0x0, size 4, output shape is |s32[]|,".data) = .ok {} := by
  exact ⟨rfl, rfl⟩

/-- C10: an allocation-header line carrying BOTH an output marker and a
parameter marker is accepted without error: the output index is set to
this allocation, the parameter number is appended to `params_idx`, and
the parameter's shape is inserted over the output's shape for the same
allocation index — the lookup for that index yields the parameter's
shape. -/
theorem dual_marker_line_accepted (st : BufferAssignment) (line : Chars)
    (idx : Nat) (szTok rest : Chars) (sz : Int) (oTok pTok psTok : Chars)
    (pv : Int) (osh psh : TupleShape)
    (hm : matchAllocLine line = some (idx, szTok, rest))
    (hs : stoiInt szTok = some sz)
    (hidx : idx = st.buffers_size.length)
    (hout : st.output_idx = -1)
    (hO : matchOutput rest = some oTok)
    (hMP : matchParam rest = some (pTok, psTok))
    (hosh : TupleShapeFromString oTok = .ok osh)
    (hpv : stoiInt pTok = some pv)
    (hpsh : TupleShapeFromString psTok = .ok psh) :
    processLine st line = .ok { buffers_size := st.buffers_size ++ [sz]
                                buffers_shape := ((idx : Int), psh) ::
                                  ((idx : Int), osh) :: st.buffers_shape
                                params_idx := st.params_idx ++ [pv]
                                output_idx := (idx : Int) } ∧
    lookupShape (((idx : Int), psh) :: ((idx : Int), osh) :: st.buffers_shape) (idx : Int) =
      some psh := by
  constructor
  · rw [processLine_matched st line idx szTok rest sz hm hs hidx]
    have hOM : applyOutputMarker idx rest { st with buffers_size := st.buffers_size ++ [sz] } =
        .ok { st with buffers_size := st.buffers_size ++ [sz]
                      output_idx := (idx : Int)
                      buffers_shape := ((idx : Int), osh) :: st.buffers_shape } := by
      unfold applyOutputMarker
      rw [hO]
      simp only []
      rw [show Check
          (({ st with buffers_size := st.buffers_size ++ [sz] } : BufferAssignment).output_idx
            = -1) "Multiple out-parameters" = .ok () from by
        unfold Check; rw [if_pos (by simpa using hout)]]
      rw [hosh]
    rw [hOM]
    simp only []
    unfold applyParamMarker
    rw [hMP]
    simp only []
    rw [hpv]
    simp only []
    rw [hpsh]
  · simp [lookupShape]

theorem dual_marker_line_accepted_witness :
    processLine {}
        ("allocation 0: 0x0, size 4, output shape is |s32[]|, parameter 3, shape |u8[2]|".data) =
      .ok { buffers_size := [4]
            buffers_shape := [((0 : Int), { elements := [{ type := 3, dimensions := [2] }] }),
                              ((0 : Int), { elements := [{ type := 1, dimensions := [] }] })]
            params_idx := [3]
            output_idx := 0 } ∧
    lookupShape [((0 : Int), { elements := [{ type := 3, dimensions := [2] }] }),
                 ((0 : Int), { elements := [{ type := 1, dimensions := [] }] })] (0 : Int) =
      some { elements := [{ type := 3, dimensions := [2] }] } :=
  dual_marker_line_accepted {}
    ("allocation 0: 0x0, size 4, output shape is |s32[]|, parameter 3, shape |u8[2]|".data)
    0 "4".data
    ("output shape is |s32[]|, parameter 3, shape |u8[2]|".data)
    4 "s32[]".data "3".data "u8[2]".data 3
    { elements := [{ type := 1, dimensions := [] }] }
    { elements := [{ type := 3, dimensions := [2] }] }
    rfl rfl rfl rfl rfl rfl rfl rfl rfl

theorem lookupShape_cons_isSome (m : List (Int × TupleShape)) (k k2 : Int) (v : TupleShape)
    (h : (lookupShape m k).isSome = true) :
    (lookupShape ((k2, v) :: m) k).isSome = true := by
  unfold lookupShape
  by_cases hk : k2 = k
  · rw [if_pos hk]; rfl
  · rw [if_neg hk]; exact h

theorem processLine_inv (st : BufferAssignment) (line : Chars) (st2 : BufferAssignment)
    (hInv : AssignInv st) (h : processLine st line = .ok st2) : AssignInv st2 := by
  cases hm : matchAllocLine line with
  | none =>
    rw [processLine_skip st line hm] at h
    injection h with hh
    rw [← hh]
    exact hInv
  | some trip =>
    obtain ⟨idx, szTok, rest⟩ := trip
    cases hs : stoiInt szTok with
    | none =>
      unfold processLine at h
      rw [hm] at h
      simp only [] at h
      rw [hs] at h
      exact absurd h (by simp)
    | some sz =>
      by_cases hidx : idx = st.buffers_size.length
      · rw [processLine_matched st line idx szTok rest sz hm hs hidx] at h
        cases hA : applyOutputMarker idx rest
            { st with buffers_size := st.buffers_size ++ [sz] } with
        | error e => rw [hA] at h; exact absurd h (by simp)
        | ok stb =>
          rw [hA] at h
          simp only [] at h
          have hInvb : AssignInv stb := by
            rcases applyOutputMarker_ok _ _ _ _ hA with rfl | ⟨ho, sh, rfl⟩
            · rcases hInv with h1 | ⟨h1, h2, h3⟩
              · exact Or.inl h1
              · right
                refine ⟨h1, ?_, h3⟩
                simp only [List.length_append, List.length_cons, List.length_nil]
                push_cast
                omega
            · right
              refine ⟨Int.natCast_nonneg idx, ?_, ?_⟩
              · simp only [List.length_append, List.length_cons, List.length_nil]
                subst hidx
                push_cast
                omega
              · unfold lookupShape
                rw [if_pos rfl]
                rfl
          rcases applyParamMarker_ok _ _ _ _ h with rfl | ⟨pv, sh, rfl⟩
          · exact hInvb
          · rcases hInvb with h1 | ⟨h1, h2, h3⟩
            · exact Or.inl h1
            · exact Or.inr ⟨h1, h2, lookupShape_cons_isSome _ _ _ _ h3⟩
      · rw [processLine_unordered st line idx szTok rest sz hm hs hidx] at h
        exact absurd h (by simp)

theorem runLines_inv : ∀ (lines : List Chars) (st a : BufferAssignment),
    AssignInv st → runLines st lines = .ok a → AssignInv a := by
  intro lines
  induction lines with
  | nil =>
    intro st a h hr
    unfold runLines at hr
    injection hr with hh
    rw [← hh]
    exact h
  | cons l r ih =>
    intro st a h hr
    unfold runLines at hr
    cases hp : processLine st l with
    | error e => rw [hp] at hr; exact absurd hr (by simp)
    | ok st2 =>
      rw [hp] at hr
      simp only [] at hr
      exact ih st2 a (processLine_inv st l st2 h hp) hr

/-- C4 (amended): for every input the parser accepts, the output part
of the claimed invariant holds — `output_idx` is set, is a valid index
into `buffers_size`, and has a shape entry.  (The part of the claim
about `params_idx` is false: that list stores the parameter NUMBERS
from the input, which are never validated against `buffers_size` —
see the counterexample.) -/
theorem output_idx_valid_of_parse_ok (lines : List Chars) (a : BufferAssignment)
    (h : ParseBufferAssignment lines = .ok a) :
    0 ≤ a.output_idx ∧ a.output_idx < a.buffers_size.length ∧
    (lookupShape a.buffers_shape a.output_idx).isSome = true := by
  unfold ParseBufferAssignment at h
  cases hr : runLines {} lines with
  | error e => rw [hr] at h; exact absurd h (by simp)
  | ok a2 =>
    rw [hr] at h
    simp only [] at h
    have hInv := runLines_inv lines {} a2 (Or.inl rfl) hr
    cases hchk : Check (a2.output_idx ≠ -1) "Output not set" with
    | error e => rw [hchk] at h; exact absurd h (by simp)
    | ok u =>
      rw [hchk] at h
      simp only [] at h
      injection h with hh
      have hne : a2.output_idx ≠ -1 := by
        unfold Check at hchk
        split at hchk
        · rename_i hcond; exact of_decide_eq_true hcond
        · exact absurd hchk (by simp)
      rcases hInv with h1 | hgood
      · exact absurd h1 hne
      · rw [← hh]
        exact hgood

theorem output_idx_valid_of_parse_ok_witness :
    0 ≤ fileOutParsed.output_idx ∧
    fileOutParsed.output_idx < fileOutParsed.buffers_size.length ∧
    (lookupShape fileOutParsed.buffers_shape fileOutParsed.output_idx).isSome = true :=
  output_idx_valid_of_parse_ok fileOut fileOutParsed rfl

/-- C4 counterexample: the parser accepts a file whose parameter marker
carries parameter number 7 although only allocations 0 and 1 exist:
`params_idx` holds 7, which is not a valid index into `buffers_size`
and has no shape entry. -/
theorem params_idx_invalid_accepted :
    ParseBufferAssignment fileBadParam = .ok fileBadParamParsed ∧
    fileBadParamParsed.params_idx = [7] ∧
    ¬ ((7 : Int) < fileBadParamParsed.buffers_size.length) ∧
    lookupShape fileBadParamParsed.buffers_shape 7 = none :=
  ⟨rfl, rfl, by decide, rfl⟩

theorem Fill_error_ne (sh : ArrayShape) (e : Failure) (h : Fill sh = .error e) :
    e ≠ .diagnostic "Unexpected number of elements" := by
  unfold Fill at h
  split at h
  · rename_i hcond
    injection h with hh
    rw [← hh]
    rcases hcond with ht | ht | ht | ht <;> rw [ht] <;> decide
  · split at h
    · exact absurd h (by simp)
    · split at h
      · exact absurd h (by simp)
      · split at h
        · exact absurd h (by simp)
        · exact absurd h (by simp)

/-- C2 (amended): with the looked-up single-element parameter shape,
its allocation size and its byte width in hand, the run fails with the
`Unexpected number of elements` diagnostic exactly when the declared
element count differs from the TRUNCATING INTEGER DIVISION
`size / ByteSize(type)` — not from the product comparison of the
claim; when the division matches, the check passes even if
`count * width ≠ size`. -/
theorem size_check_iff_div (a : BufferAssignment) (p : Int) (sh : ArrayShape) (size w : Int)
    (h1 : (lookupShape a.buffers_shape p).getD { elements := [] } = { elements := [sh] })
    (h2 : 0 ≤ p) (h3 : a.buffers_size.get? p.toNat = some size)
    (h4 : ByteSize sh.type = .ok w) :
    (fillOneParam a p = .error (.diagnostic "Unexpected number of elements") ↔
      GetNumElements sh ≠ Int.tdiv size w) := by
  unfold fillOneParam
  rw [h1]
  rw [show (({ elements := [sh] } : TupleShape)).elements.getD 0 default = sh from rfl]
  rw [show Check ((({ elements := [sh] } : TupleShape)).elements.length = 1)
      "Parameters can not be tuples" = .ok () from by
    unfold Check; rw [if_pos (by simp)]]
  rw [show (if 0 ≤ p then a.buffers_size.get? p.toNat else none) = some size from by
    rw [if_pos h2, h3]]
  simp only []
  rw [h4]
  simp only []
  by_cases hq : GetNumElements sh = Int.tdiv size w
  · rw [show Check (GetNumElements sh = Int.tdiv size w) "Unexpected number of elements" =
      .ok () from by unfold Check; rw [if_pos (by simpa using hq)]]
    simp only []
    constructor
    · intro h
      cases hf : Fill sh with
      | error e =>
        rw [hf] at h
        injection h with hh
        exact absurd hh (Fill_error_ne sh e hf)
      | ok c => rw [hf] at h; exact absurd h (by simp)
    · intro hne; exact absurd hq hne
  · rw [show Check (GetNumElements sh = Int.tdiv size w) "Unexpected number of elements" =
      .error (.diagnostic "Unexpected number of elements") from by
        unfold Check; rw [if_neg (by simpa using hq)]]
    simp only []
    exact ⟨fun _ => hq, fun _ => trivial⟩

theorem size_check_iff_div_witness :
    fillOneParam s32pairAssignment 0 = .error (.diagnostic "Unexpected number of elements") ↔
      GetNumElements { type := 1, dimensions := [2] } ≠ Int.tdiv 8 4 :=
  size_check_iff_div s32pairAssignment 0 { type := 1, dimensions := [2] } 8 4
    rfl (by decide) rfl rfl

/-- C2 counterexample: an `s32[]` parameter (element count 1, byte
width 4) with declared allocation size 5: the products differ
(1 * 4 ≠ 5), yet the check passes because 5 / 4 truncates to 1 — no
`ShapeSizeMismatch` diagnostic is raised. -/
theorem size_check_passes_on_mismatch :
    GetNumElements { type := 1, dimensions := [] } * 4 ≠ (5 : Int) ∧
    fillOneParam mismatchAssignment 0 ≠
      .error (.diagnostic "Unexpected number of elements") := by
  exact ⟨by decide, by decide⟩

theorem fillParams_keys (a : BufferAssignment) :
    ∀ (ps : List Int) (res : List (Int × Contents)), fillParams a ps = .ok res →
      res.map Prod.fst = ps := by
  intro ps
  induction ps with
  | nil => intro res h; injection h with hh; rw [← hh]; rfl
  | cons p r ih =>
    intro res h
    unfold fillParams at h
    cases hf : fillOneParam a p with
    | error e => rw [hf] at h; exact absurd h (by simp)
    | ok pc =>
      rw [hf] at h
      simp only [] at h
      cases hr : fillParams a r with
      | error e => rw [hr] at h; exact absurd h (by simp)
      | ok rest =>
        rw [hr] at h
        simp only [] at h
        injection h with hh
        rw [← hh]
        simp [ih rest hr]

theorem fillParams_mem (a : BufferAssignment) :
    ∀ (ps : List Int) (res : List (Int × Contents)), fillParams a ps = .ok res →
      ∀ k c, (k, c) ∈ res → ∃ sh, fillOneParam a k = .ok (sh, c) := by
  intro ps
  induction ps with
  | nil =>
    intro res h k c hm
    injection h with hh
    rw [← hh] at hm
    simp at hm
  | cons p r ih =>
    intro res h k c hm
    unfold fillParams at h
    cases hf : fillOneParam a p with
    | error e => rw [hf] at h; exact absurd h (by simp)
    | ok pc =>
      rw [hf] at h
      simp only [] at h
      cases hr : fillParams a r with
      | error e => rw [hr] at h; exact absurd h (by simp)
      | ok rest =>
        rw [hr] at h
        simp only [] at h
        injection h with hh
        rw [← hh] at hm
        rcases List.mem_cons.mp hm with heq | hm2
        · injection heq with he1 he2
          subst he1
          subst he2
          exact ⟨pc.1, by rw [hf]⟩
        · exact ih rest hr k c hm2

theorem fillOneParam_ok_shape (a : BufferAssignment) (p : Int) (sh : ArrayShape)
    (c : Contents) (h : fillOneParam a p = .ok (sh, c)) :
    sh = ((lookupShape a.buffers_shape p).getD { elements := [] }).elements.getD 0 default ∧
    Fill sh = .ok c := by
  unfold fillOneParam at h
  split at h
  · exact absurd h (by simp)
  · split at h
    · exact absurd h (by simp)
    · split at h
      · exact absurd h (by simp)
      · split at h
        · exact absurd h (by simp)
        · split at h
          · exact absurd h (by simp)
          · rename_i c2 hfill
            injection h with hh
            injection hh with hh1 hh2
            exact ⟨hh1.symm, by rw [← hh1, hfill, hh2]⟩

theorem lookupContents_mem :
    ∀ (l : List (Int × Contents)) (k : Int) (c : Contents),
      lookupContents l k = some c → (k, c) ∈ l := by
  intro l
  induction l with
  | nil => intro k c h; exact absurd h (by simp [lookupContents])
  | cons e r ih =>
    intro k c h
    unfold lookupContents at h
    by_cases hk : e.1 = k
    · rw [if_pos hk] at h
      injection h with hh
      rw [← hk, ← hh]
      exact List.mem_cons_self (e.1, e.2) r
    · rw [if_neg hk] at h
      exact List.mem_cons_of_mem e (ih k c h)

theorem lookupContents_isSome_of_keyMem :
    ∀ (l : List (Int × Contents)) (k : Int), k ∈ l.map Prod.fst →
      ∃ c, lookupContents l k = some c := by
  intro l
  induction l with
  | nil => intro k h; simp at h
  | cons e r ih =>
    intro k h
    unfold lookupContents
    by_cases hk : e.1 = k
    · exact ⟨e.2, by rw [if_pos hk]⟩
    · rcases List.mem_map.mp h with ⟨x, hx, hfx⟩
      rcases List.mem_cons.mp hx with rfl | hx2
      · exact absurd hfx hk
      · rw [if_neg hk]
        exact ih k (List.mem_map.mpr ⟨x, hx2, hfx⟩)

/-- C6: the generator is re-seeded with the constant 42 inside every
fill call, so within one run of the fill loop any two parameter buffers
whose declared shapes are equal receive identical value sequences —
there is no shared, advancing generator state between the calls. -/
theorem fill_deterministic_same_shape (a : BufferAssignment) (i j : Int)
    (hi : i ∈ a.params_idx) (hj : j ∈ a.params_idx)
    (hsh : lookupShape a.buffers_shape i = lookupShape a.buffers_shape j) :
    (fillParams a a.params_idx).map (fun r => lookupContents r i) =
    (fillParams a a.params_idx).map (fun r => lookupContents r j) := by
  cases hfp : fillParams a a.params_idx with
  | error e => rfl
  | ok res =>
    simp only [Except.map]
    have hkeys := fillParams_keys a a.params_idx res hfp
    obtain ⟨ci, hci⟩ := lookupContents_isSome_of_keyMem res i (by rw [hkeys]; exact hi)
    obtain ⟨cj, hcj⟩ := lookupContents_isSome_of_keyMem res j (by rw [hkeys]; exact hj)
    obtain ⟨shi, hfi⟩ := fillParams_mem a a.params_idx res hfp i ci
      (lookupContents_mem res i ci hci)
    obtain ⟨shj, hfj⟩ := fillParams_mem a a.params_idx res hfp j cj
      (lookupContents_mem res j cj hcj)
    have hi1 := fillOneParam_ok_shape a i shi ci hfi
    have hj1 := fillOneParam_ok_shape a j shj cj hfj
    have hsame : shi = shj := by rw [hi1.1, hj1.1, hsh]
    have hcc : ci = cj := by
      have hx := hi1.2
      rw [hsame, hj1.2] at hx
      injection hx with hh
      exact hh.symm
    rw [hci, hcj, hcc]

theorem fill_deterministic_same_shape_witness :
    (fillParams twoParamAssignment twoParamAssignment.params_idx).map
        (fun r => lookupContents r 0) =
      (fillParams twoParamAssignment twoParamAssignment.params_idx).map
        (fun r => lookupContents r 1) :=
  fill_deterministic_same_shape twoParamAssignment 0 1 (by decide) (by decide) rfl

/-- C1 (amended): the standard-output stream is unaffected by the
verbose flag only when the parsed assignment has NO parameter buffers;
with parameters present, verbose mode additionally writes each filled
parameter's header line and contents to standard output (see the
counterexample). -/
theorem mainRun_stdout_eq_of_no_params (lines : List Chars) (a : BufferAssignment)
    (h1 : ParseBufferAssignment lines = .ok a) (h2 : a.params_idx = [])
    (outFlat : Contents) (outElems : List Contents) :
    (mainRun true lines outFlat outElems).1 = (mainRun false lines outFlat outElems).1 := by
  unfold mainRun
  rw [h1]
  simp only []
  rw [h2]
  rw [show fillLoop true a [] [] = ([], .ok ()) from rfl,
      show fillLoop false a [] [] = ([], .ok ()) from rfl]

theorem mainRun_stdout_eq_of_no_params_witness :
    (mainRun true fileOut [] []).1 = (mainRun false fileOut [] []).1 :=
  mainRun_stdout_eq_of_no_params fileOut fileOutParsed rfl rfl [] []

/-- C1 counterexample: on a file with one `s32[]` parameter, the run
with the verbose variable set writes `Filled parameter buffer for
param 0:` and the buffer contents to STANDARD OUTPUT before `Output:`,
while the run without it starts stdout at `Output:` — the stdout byte
streams differ. -/
theorem mainRun_verbose_changes_stdout :
    (mainRun true fileParamOut [] []).1 ≠ (mainRun false fileParamOut [] []).1 := by
  decide
